import Mathlib

/-!
A verification development for the `x1-error-logging` repository.

The repository's five core components (error logger, workflow router,
verification gates, self-improvement loop, auto-fix engine) are shallowly
embedded below: pure JavaScript string/array computations become Lean
functions over `String` / `List`, class instance state becomes explicit
record-typed state threaded through the operations, the filesystem becomes
an association list `path -> contents`, and `async` suspension points
(gate approval, test subprocesses) become explicit resumption functions or
oracle parameters.  `crypto.createHash('sha256')` is implemented in full;
the md5-10 pattern hashes of the gates and improvement loop are modelled
by their (injective) pre-images, which only coarsens key equality.
-/

set_option maxRecDepth 100000

namespace X1

/- ───────────────────────── association lists ─────────────────────────
JavaScript `Map` and plain-object dictionaries, with `Map`'s
insertion-order-preserving update semantics. -/

def alGet {κ α : Type} [DecidableEq κ] : List (κ × α) → κ → Option α
  | [], _ => none
  | (k, v) :: t, k' => if k = k' then some v else alGet t k'

def alSet {κ α : Type} [DecidableEq κ] : List (κ × α) → κ → α → List (κ × α)
  | [], k, v => [(k, v)]
  | (k', v') :: t, k, v =>
      if k' = k then (k', v) :: t else (k', v') :: alSet t k v

def alErase {κ α : Type} [DecidableEq κ] : List (κ × α) → κ → List (κ × α)
  | [], _ => []
  | (k', v') :: t, k => if k' = k then alErase t k else (k', v') :: alErase t k

/- ───────────────────────── string utilities ─────────────────────────
The JavaScript string primitives the source uses, over `List Char`. -/

/-- The `needle` occurs at the head of `hay` (JS `String.prototype.startsWith`). -/
def listStartsWith : List Char → List Char → Bool
  | _, [] => true
  | [], _ :: _ => false
  | h :: t, n :: ns => h = n && listStartsWith t ns

/-- The `hay.includes(needle)` on char lists. -/
def listContains (hay needle : List Char) : Bool :=
  match hay with
  | [] => listStartsWith [] needle
  | _ :: t => listStartsWith hay needle || listContains t needle

/-- JS `String.prototype.includes`. -/
def containsSub (hay needle : String) : Bool :=
  listContains hay.data needle.data

/-- JS `String.prototype.toLowerCase` (ASCII range, which is all the
source's keyword comparisons use). -/
def lowerStr (s : String) : String :=
  ⟨s.data.map Char.toLower⟩

/-- JS `String.prototype.startsWith`. -/
def startsWithStr (s pre : String) : Bool :=
  listStartsWith s.data pre.data

/- ───────────────────────── error classifier ─────────────────────────
`classifyError` from `src/src/verification-gates.js` (error-logger
section): a deterministic cascade over the error name and lowercased
message. -/

/-- A caught JavaScript `Error`: its `name`, `message` and `stack`.
A missing stack is the empty string (the source only tests falsiness). -/
structure JsError where
  name : String
  message : String
  stack : String
  deriving DecidableEq, Repr

/-- The classifier cascade of `classifyError`, clause for clause. -/
def classifyError (e : JsError) : String :=
  let msg := lowerStr e.message
  let name := lowerStr e.name
  if name = "syntaxerror" || containsSub msg "unexpected token" then "syntax"
  else if containsSub msg "econnrefused" || containsSub msg "enotfound" ||
      containsSub msg "fetch failed" || containsSub msg "network" then "network"
  else if containsSub msg "timeout" || containsSub msg "etimedout" ||
      containsSub msg "deadline" then "timeout"
  else if containsSub msg "401" || containsSub msg "403" ||
      containsSub msg "unauthorized" || containsSub msg "permission" then "permission"
  else if containsSub msg "404" || containsSub msg "429" || containsSub msg "500" ||
      containsSub msg "api" || containsSub msg "rate limit" then "api"
  else if name = "typeerror" || name = "referenceerror" || name = "rangeerror" then "logic"
  else if containsSub msg "cannot find module" || containsSub msg "module not found" ||
      containsSub msg "is not a function" then "dependency"
  else if containsSub msg "invalid" || containsSub msg "required" ||
      containsSub msg "expected" || containsSub msg "must be" then "validation"
  else "unknown"

/-- The message keywords of the classifier tiers that are tested before the
error-name tier that yields `logic` (syntax, network, timeout, permission,
api, in cascade order). -/
def earlierTierKeywords : List String :=
  ["unexpected token",
   "econnrefused", "enotfound", "fetch failed", "network",
   "timeout", "etimedout", "deadline",
   "401", "403", "unauthorized", "permission",
   "404", "429", "500", "api", "rate limit"]

/- ───────────────────────── SHA-256 ─────────────────────────
`crypto.createHash('sha256').update(s).digest('hex')`, over natural
numbers reduced mod 2^32.  The round constants are the first 32 fractional
bits of the cube roots of the first 64 primes, and the initial state the
first 32 fractional bits of the square roots of the first 8 primes,
computed here by integer root extraction rather than transcribed. -/

def mask32 : Nat := 4294967295

def add32 (a b : Nat) : Nat := (a + b) % 4294967296

def rotr (n x : Nat) : Nat := ((x >>> n) ||| (x <<< (32 - n))) &&& mask32

/-- Binary search for the integer cube root (`fuel` bounds the iterations,
invariant `lo^3 ≤ n < hi^3`). -/
def icbrtAux (n : Nat) : Nat → Nat → Nat → Nat
  | lo, _hi, 0 => lo
  | lo, hi, fuel + 1 =>
      if lo + 1 ≥ hi then lo
      else
        let mid := (lo + hi) / 2
        if mid * mid * mid ≤ n then icbrtAux n mid hi fuel
        else icbrtAux n lo mid fuel

def icbrt (n : Nat) : Nat := icbrtAux n 0 (n + 2) 200

/-- Binary search for the integer square root, same scheme as `icbrtAux`. -/
def isqrtAux (n : Nat) : Nat → Nat → Nat → Nat
  | lo, _hi, 0 => lo
  | lo, hi, fuel + 1 =>
      if lo + 1 ≥ hi then lo
      else
        let mid := (lo + hi) / 2
        if mid * mid ≤ n then isqrtAux n mid hi fuel
        else isqrtAux n lo mid fuel

def isqrt (n : Nat) : Nat := isqrtAux n 0 (n + 2) 200

def isPrimeNat (n : Nat) : Bool :=
  2 ≤ n && (((List.range n).drop 2).all (fun d => n % d ≠ 0))

/-- The first 64 primes (311 is the 64th). -/
def primes64 : List Nat := (List.range 312).filter isPrimeNat

def shaK : List Nat := primes64.map (fun p => icbrt (p <<< 96) &&& mask32)

def shaH0 : List Nat :=
  [2, 3, 5, 7, 11, 13, 17, 19].map (fun p => isqrt (p <<< 64) &&& mask32)

/-- Big-endian byte expansion at a fixed width. -/
def bytesBE : Nat → Nat → List Nat
  | 0, _ => []
  | w + 1, v => bytesBE w (v >>> 8) ++ [v &&& 255]

/-- SHA-256 padding: `0x80`, zeros to 56 mod 64, 64-bit big-endian bit length. -/
def padMsg (m : List Nat) : List Nat :=
  let zeros := (64 - ((m.length + 9) % 64)) % 64
  m ++ [128] ++ List.replicate zeros 0 ++ bytesBE 8 (m.length * 8)

/-- Big-endian 32-bit words from bytes. -/
def toWords : List Nat → List Nat
  | b0 :: b1 :: b2 :: b3 :: t =>
      ((((b0 <<< 8) ||| b1) <<< 8 ||| b2) <<< 8 ||| b3) :: toWords t
  | _ => []

def chunksAux : Nat → List Nat → List (List Nat)
  | 0, _ => []
  | _, [] => []
  | fuel + 1, x :: t => (x :: t.take 63) :: chunksAux fuel (t.drop 63)

def chunks64 (l : List Nat) : List (List Nat) := chunksAux l.length l

def smallSigma0 (x : Nat) : Nat := rotr 7 x ^^^ rotr 18 x ^^^ (x >>> 3)

def smallSigma1 (x : Nat) : Nat := rotr 17 x ^^^ rotr 19 x ^^^ (x >>> 10)

def bigSigma0 (x : Nat) : Nat := rotr 2 x ^^^ rotr 13 x ^^^ rotr 22 x

def bigSigma1 (x : Nat) : Nat := rotr 6 x ^^^ rotr 11 x ^^^ rotr 25 x

def chF (x y z : Nat) : Nat := (x &&& y) ^^^ ((x ^^^ mask32) &&& z)

def majF (x y z : Nat) : Nat := (x &&& y) ^^^ (x &&& z) ^^^ (y &&& z)

/-- Extend the 16 message-schedule words of a chunk to 64. -/
def extendW (w : List Nat) : List Nat :=
  (List.range 48).foldl (fun acc _ =>
    let n := acc.length
    acc ++ [add32 (add32 (smallSigma1 (acc.getD (n - 2) 0)) (acc.getD (n - 7) 0))
                  (add32 (smallSigma0 (acc.getD (n - 15) 0)) (acc.getD (n - 16) 0))]) w

/-- Evaluation-order hint: forces `n` to a numeral before producing `k`,
keeping kernel reduction of the compression rounds shallow. -/
def seqNat {α : Type} (n : Nat) (k : α) : α := if n < 0 then k else k

def compressRounds : List (Nat × Nat) → List Nat → List Nat
  | [], st => st
  | (k, w) :: rest, st =>
      match st with
      | [a, b, c, d, e, f, g, h] =>
          let t1 := add32 (add32 (add32 h (bigSigma1 e)) (add32 (chF e f g) k)) w
          let t2 := add32 (bigSigma0 a) (majF a b c)
          let a' := add32 t1 t2
          let e' := add32 d t1
          seqNat a' (seqNat e' (compressRounds rest [a', a, b, c, e', e, f, g]))
      | other => other

def processChunk (h : List Nat) (chunk : List Nat) : List Nat :=
  let st := compressRounds (shaK.zip (extendW (toWords chunk))) h
  (h.zip st).map (fun p => add32 p.1 p.2)

def sha256Words (msg : List Nat) : List Nat :=
  (chunks64 (padMsg msg)).foldl processChunk shaH0

def hexDigitChar (n : Nat) : Char :=
  if n < 10 then Char.ofNat (48 + n) else Char.ofNat (87 + n)

def wordHex8 (w : Nat) : List Char :=
  (List.range 8).map (fun i => hexDigitChar ((w >>> (28 - 4 * i)) &&& 15))

/-- UTF-8 bytes of a string; all strings hashed by the source are ASCII,
where the bytes are the code points. -/
def strBytes (s : String) : List Nat := s.data.map Char.toNat

/-- Lowercase hex SHA-256 digest of a string. -/
def sha256Hex (s : String) : String :=
  ⟨((sha256Words (strBytes s)).map wordHex8).flatten⟩

/-- The digest truncated to 12 hex characters (`.slice(0, 12)`). -/
def sha256Hex12 (s : String) : String :=
  ⟨(((sha256Words (strBytes s)).map wordHex8).flatten).take 12⟩

/- ───────────────────── stack-trace fingerprinting ─────────────────────
`hashStackTrace` from the error-logger section of
`src/src/verification-gates.js`.  The two `String.prototype.replace`
calls are embedded by direct implementations of the regexes
`/:\d+:\d+\)?$/` (strip a trailing line:column, with an optional closing
parenthesis) and `/\(\/.*\//g` (collapse `(/`…`/` — an absolute path
prefix inside a parenthesis, greedily up to the last slash of the line —
to `(`). -/

def isWsChar (c : Char) : Bool := c.isWhitespace

/-- JS `String.prototype.trim` on a char list. -/
def trimList (l : List Char) : List Char :=
  ((l.dropWhile isWsChar).reverse.dropWhile isWsChar).reverse

/-- JS `split('\n')`. -/
def splitOnNl : List Char → List (List Char)
  | [] => [[]]
  | c :: t =>
      if c = '\n' then [] :: splitOnNl t
      else
        match splitOnNl t with
        | [] => [[c]]
        | h :: r => (c :: h) :: r

/-- Drop one or more leading decimal digits, then a `':'` (reading the
reversed line, this consumes one `:\d+` group of the line:column suffix). -/
def dropNumColon (l : List Char) : Option (List Char) :=
  match l with
  | c :: _ =>
      if c.isDigit then
        match l.dropWhile Char.isDigit with
        | ':' :: r => some r
        | _ => none
      else none
  | [] => none

/-- Both `:\d+` groups of the reversed suffix. -/
def parseLineColRev (r : List Char) : Option (List Char) :=
  match dropNumColon r with
  | some r2 => dropNumColon r2
  | none => none

/-- The `line.replace(/:\d+:\d+\)?$/, '')`. -/
def stripLineCol (l : List Char) : List Char :=
  match l.reverse with
  | ')' :: r =>
      match parseLineColRev r with
      | some r' => r'.reverse
      | none => l
  | r =>
      match parseLineColRev r with
      | some r' => r'.reverse
      | none => l

/-- The part of `l` strictly after its last `'/'`, if `l` has one. -/
def afterLastSlash (l : List Char) : Option (List Char) :=
  let t := l.reverse.takeWhile (fun c => c ≠ '/')
  if t.length = l.length then none else some t.reverse

/-- The `line.replace(/\(\/.*\//g, '(')`, scanning left to right; `fuel`
makes the recursion structural (each step consumes at least one char). -/
def stripAbsPathAux : Nat → List Char → List Char
  | 0, l => l
  | _, [] => []
  | fuel + 1, c :: rest =>
      if c = '(' then
        match rest with
        | '/' :: rest2 =>
            match afterLastSlash rest2 with
            | some after => '(' :: stripAbsPathAux fuel after
            | none => '(' :: stripAbsPathAux fuel rest
        | _ => '(' :: stripAbsPathAux fuel rest
      else c :: stripAbsPathAux fuel rest

def stripAbsPath (l : List Char) : List Char := stripAbsPathAux l.length l

/-- The `join('|')`. -/
def joinBar : List (List Char) → List Char
  | [] => []
  | [x] => x
  | x :: y :: t => x ++ '|' :: joinBar (y :: t)

/-- The normalization pipeline inside `hashStackTrace`: split into lines,
trim, keep call-site frames, strip line:column, strip parenthesised
absolute path prefixes, keep the top five frames, join with `'|'`. -/
def normalizeStack (stack : String) : String :=
  ⟨joinBar (((((splitOnNl stack.data).map trimList).filter
      (fun l => listStartsWith l ['a', 't', ' '])).map stripLineCol).map stripAbsPath
      |>.take 5)⟩

/-- The `hashStackTrace`: the sentinel `"no-stack"` for a falsy stack, else
the truncated SHA-256 of the normalized frames. -/
def hashStackTrace (stack : String) : String :=
  if stack = "" then "no-stack" else sha256Hex12 (normalizeStack stack)

/- ───────────────────────── ErrorLogger ─────────────────────────
The `ErrorLogger` class.  The daily log files become an association list
`day index → appended entries`; ISO timestamps become naturals; the
in-memory occurrence map is the `Map` it is in the source.  `context.input`
arrives already serialized (the source serializes with `JSON.stringify`
before truncating).  The `onCritical` / `onThresholdHit` callbacks and
filesystem faults are outside the embedded behaviour. -/

def SEVERITY_CRITICAL : String := "critical"

/-- One newline-delimited record of a daily log file.  Fields that a given
record kind does not carry are `none` (JS `undefined`). -/
structure LogEntry where
  etype : String
  ts : Nat
  hash : Option String := none
  errorType : Option String := none
  severity : Option String := none
  skill : Option String := none
  agent : Option String := none
  message : Option String := none
  name : Option String := none
  stack : Option String := none
  inputSummary : Option String := none
  durationMs : Option Nat := none
  occurrenceCount : Nat := 0
  errorHash : Option String := none
  description : Option String := none
  deriving DecidableEq, Repr

structure CaptureCtx where
  skill : Option String := none
  agent : Option String := none
  input : Option String := none
  severity : Option String := none
  deriving DecidableEq, Repr

structure LoggerState where
  occurrenceMap : List (String × Nat)
  files : List (Nat × List LogEntry)
  deriving Repr

def emptyLogger : LoggerState := ⟨[], []⟩

/-- The `_summarizeInput`: truncate a serialized input at 500 characters. -/
def summarizeInput (input : Option String) : Option String :=
  match input with
  | none => none
  | some s =>
      some (if 500 < s.data.length then ⟨s.data.take 500 ++ "...[truncated]".data⟩ else s)

def criticalSkills : List String := ["deploy", "delete", "transfer", "swap", "send"]

/-- The `_inferSeverity`. -/
def inferSeverity (errorType : String) (ctx : CaptureCtx) : String :=
  if criticalSkills.any (fun s => containsSub (ctx.skill.getD "") s) then "critical"
  else if errorType = "api" || errorType = "network" || errorType = "permission" then "high"
  else if errorType = "logic" || errorType = "validation" then "medium"
  else "low"

/-- The `_buildEntry` (the `occurrence_count` 0 is overwritten by `capture`). -/
def buildEntry (e : JsError) (ctx : CaptureCtx) (ts : Nat) : LogEntry :=
  let errorType := classifyError e
  { etype := "error"
    ts := ts
    hash := some (hashStackTrace e.stack)
    errorType := some errorType
    severity := some (ctx.severity.getD (inferSeverity errorType ctx))
    skill := ctx.skill
    agent := ctx.agent
    message := some e.message
    name := some e.name
    stack := some e.stack
    inputSummary := summarizeInput ctx.input
    occurrenceCount := 0 }

/-- The `_appendToLog`, on the daily file of `day`. -/
def appendToLog (s : LoggerState) (day : Nat) (entry : LogEntry) : LoggerState :=
  { s with files := alSet s.files day ((alGet s.files day).getD [] ++ [entry]) }

/-- The `ErrorLogger.capture`: build the entry, bump the fingerprint counter,
append to the daily log, persist the counter. -/
def capture (s : LoggerState) (e : JsError) (ctx : CaptureCtx) (day ts : Nat) :
    LogEntry × LoggerState :=
  let entry0 := buildEntry e ctx ts
  let h := (entry0.hash).getD ""
  let count := (alGet s.occurrenceMap h).getD 0 + 1
  let entry := { entry0 with occurrenceCount := count }
  (entry, appendToLog { s with occurrenceMap := alSet s.occurrenceMap h count } day entry)

/-- The `ErrorLogger.recordFix`: append a fix note and clear the fingerprint
from the counter. -/
def recordFix (s : LoggerState) (errorHash : String) (description : String) (day ts : Nat) :
    LogEntry × LoggerState :=
  let fixEntry : LogEntry :=
    { etype := "fix", ts := ts, errorHash := some errorHash, description := some description }
  let s := appendToLog s day fixEntry
  (fixEntry, { s with occurrenceMap := alErase s.occurrenceMap errorHash })

/-- The result object of `ErrorLogger.wrapSkill`. -/
structure WrapResult where
  success : Bool
  result : Option String
  error : Option JsError
  entry : Option LogEntry
  deriving DecidableEq, Repr

/-- The `ErrorLogger.wrapSkill`: the skill body is its already-settled outcome
(`Except` models the JS throw); time the call, log a success record or
capture the error. -/
def wrapSkill (s : LoggerState) (skillName : String) (fn : Except JsError String)
    (input : Option String) (agent : Option String) (severity : Option String)
    (day ts dur : Nat) : WrapResult × LoggerState :=
  match fn with
  | .ok result =>
      let successEntry : LogEntry :=
        { etype := "success", ts := ts, skill := some skillName, agent := agent,
          inputSummary := summarizeInput input, durationMs := some dur }
      (⟨true, some result, none, none⟩, appendToLog s day successEntry)
  | .error e =>
      let (entry, s') := capture s e
        { skill := some skillName, agent := agent, input := input, severity := severity }
        day ts
      (⟨false, none, some e, some entry⟩, s')

/-- The filter object of `ErrorLogger.query` (a `some 0` minimum is falsy
in the source and filters nothing, like `none`). -/
structure QueryFilters where
  skill : Option String := none
  qtype : Option String := none
  hash : Option String := none
  minOccurrences : Option Nat := none
  deriving DecidableEq, Repr

/-- The `_matchesFilters` (comparisons against absent JS fields are false). -/
def matchesFilters (e : LogEntry) (f : QueryFilters) : Bool :=
  (match f.skill with | none => true | some v => e.skill = some v) &&
  (match f.qtype with | none => true | some v => e.errorType = some v) &&
  (match f.hash with | none => true | some v => e.hash = some v) &&
  (match f.minOccurrences with
   | none => true
   | some m => m = 0 || m ≤ e.occurrenceCount) &&
  !(e.etype = "success" && f.qtype.isSome)

/-- The `ErrorLogger.query`: scan the last `days` daily files starting from
`today` going backwards, in that order, keeping matching lines in file
order. -/
def queryLog (s : LoggerState) (f : QueryFilters) (days today : Nat) : List LogEntry :=
  (List.range days).flatMap
    (fun i => ((alGet s.files (today - i)).getD []).filter (fun e => matchesFilters e f))

/-- Stable insertion into a count-descending list (JS `sort((a, b) => b[1] - a[1])`,
which is stable: ties keep `Map` insertion order). -/
def insertCountDesc (x : String × Nat) : List (String × Nat) → List (String × Nat)
  | [] => [x]
  | y :: t => if x.2 ≤ y.2 then y :: insertCountDesc x t else x :: y :: t

def sortCountDesc (l : List (String × Nat)) : List (String × Nat) :=
  l.foldr insertCountDesc []

structure RecurringError where
  hash : String
  count : Nat
  latestEntry : Option LogEntry
  deriving DecidableEq, Repr

/-- The `ErrorLogger.getRecurringErrors`: top fingerprints by count, each
annotated with `entries[entries.length - 1]` of a 30-day `query`. -/
def getRecurringErrors (s : LoggerState) (limit today : Nat) : List RecurringError :=
  ((sortCountDesc s.occurrenceMap).take limit).map (fun p =>
    let entries := queryLog s { hash := some p.1 } 30 today
    ⟨p.1, p.2, entries.getLast?⟩)

/- ───────────────────────── WorkflowRouter ─────────────────────────
`WorkflowRouter.route` from `src/src/workflow-router.js`.  A route's
regex pattern list is embedded as the predicate "some pattern matches the
trimmed message"; handlers, middleware and pre-checks are the opaque
callables they are in the source, with a JS throw modelled by `Except`.
The execution context is represented by the routed message (the only part
of it the embedded claims inspect), and the wall clock by explicit `day` /
`now` / duration parameters. -/

structure CheckRes where
  pass : Bool
  reason : String
  deriving DecidableEq, Repr

structure RouteC where
  name : String
  agent : Option String := none
  priority : Nat := 2
  risk : String := "none"
  enabled : Bool := true
  matchesMsg : String → Bool
  handler : String → Except JsError String
  preChecks : List (String → CheckRes) := []

structure ExecOutcome where
  success : Bool
  result : Option String
  error : Option JsError
  duration : Nat

/-- Middleware: `(route, ctx) => ...` for `pre`, plus the outcome for `post`. -/
abbrev PreMW : Type := RouteC → String → Except JsError Unit

abbrev PostMW : Type := RouteC → String → ExecOutcome → Except JsError Unit

structure ExecStats where
  total : Nat := 0
  successes : Nat := 0
  failures : Nat := 0
  totalDuration : Nat := 0
  deriving DecidableEq, Repr

structure Analytics where
  hits : List (String × Nat) := []
  misses : List (String × Nat) := []
  executions : List (String × ExecStats) := []
  deriving DecidableEq, Repr

inductive RouterEvent where
  | matched (route message : String)
  | noMatch (message : String)
  | succeeded (route : String)
  | errored (route : String)
  deriving DecidableEq, Repr

structure RouterState where
  routes : List RouteC
  preMW : List PreMW := []
  postMW : List PostMW := []
  fallback : Option (String → String) := none
  logger : LoggerState := emptyLogger
  analytics : Analytics := {}
  events : List RouterEvent := []

def trackHit (a : Analytics) (routeName : String) : Analytics :=
  { a with hits := alSet a.hits routeName ((alGet a.hits routeName).getD 0 + 1) }

def trackMiss (a : Analytics) (message : String) (ts : Nat) : Analytics :=
  let misses := a.misses ++ [(⟨message.data.take 100⟩, ts)]
  { a with misses := if 50 < misses.length then misses.drop 1 else misses }

def trackExecution (a : Analytics) (routeName : String) (success : Bool) (durationMs : Nat) :
    Analytics :=
  let ex := (alGet a.executions routeName).getD {}
  let ex := { ex with
    total := ex.total + 1
    successes := ex.successes + (if success then 1 else 0)
    failures := ex.failures + (if success then 0 else 1)
    totalDuration := ex.totalDuration + durationMs }
  { a with executions := alSet a.executions routeName ex }

/-- The `_findMatch`: first enabled route one of whose patterns matches the
trimmed message. -/
def findMatch (routes : List RouteC) (msg : String) : Option RouteC :=
  routes.find? (fun r => r.enabled && r.matchesMsg ⟨trimList msg.data⟩)

/-- The `_riskToSeverity`. -/
def riskToSeverity (risk : String) : String :=
  if risk = "critical" then "critical"
  else if risk = "high" then "high"
  else if risk = "medium" then "medium"
  else "low"

/-- The object `route()` resolves with. -/
structure RouteResult where
  matched : Bool
  route : Option String
  result : Option String
  error : Option String
  entry : Option LogEntry
  deriving DecidableEq, Repr

/-- The pre-middleware loop of `route()`: each middleware runs in its own
`try`; a throw is captured against the pseudo-skill `middleware-pre` and
the loop continues. -/
def runPreMW (mws : List PreMW) (r : RouteC) (msg : String) (lg : LoggerState)
    (day now : Nat) : LoggerState :=
  mws.foldl (fun lg mw =>
    match mw r msg with
    | Except.ok _ => lg
    | Except.error err => (capture lg err { skill := some "middleware-pre" } day now).2) lg

/-- The post-middleware loop, capturing against `middleware-post`. -/
def runPostMW (mws : List PostMW) (r : RouteC) (msg : String) (outcome : ExecOutcome)
    (lg : LoggerState) (day now : Nat) : LoggerState :=
  mws.foldl (fun lg mw =>
    match mw r msg outcome with
    | Except.ok _ => lg
    | Except.error err => (capture lg err { skill := some "middleware-post" } day now).2) lg

/-- The `WorkflowRouter.route`: match, hit tracking, pre-middleware,
pre-checks, logger-wrapped handler, execution tracking, post-middleware,
event emission. -/
def routeMsg (st : RouterState) (msg : String) (day now dur : Nat) :
    RouteResult × RouterState :=
  match findMatch st.routes msg with
  | none =>
      let st := { st with
        analytics := trackMiss st.analytics msg now
        events := st.events ++ [RouterEvent.noMatch msg] }
      match st.fallback with
      | some fb => (⟨false, none, some (fb msg), none, none⟩, st)
      | none => (⟨false, none, none, some "No matching route", none⟩, st)
  | some r =>
      let st := { st with
        analytics := trackHit st.analytics r.name
        events := st.events ++ [RouterEvent.matched r.name msg] }
      let lg := runPreMW st.preMW r msg st.logger day now
      let st := { st with logger := lg }
      match r.preChecks.find? (fun check => !(check msg).pass) with
      | some check =>
          (⟨true, some r.name, none,
            some ("Pre-check failed: " ++ (check msg).reason), none⟩, st)
      | none =>
          let (wr, lg) := wrapSkill st.logger r.name (r.handler msg) (some msg) r.agent
            (some (riskToSeverity r.risk)) day now dur
          let st := { st with
            logger := lg
            analytics := trackExecution st.analytics r.name wr.success dur }
          let outcome : ExecOutcome := ⟨wr.success, wr.result, wr.error, dur⟩
          let st := { st with logger := runPostMW st.postMW r msg outcome st.logger day now }
          if wr.success then
            (⟨true, some r.name, wr.result, none, none⟩,
             { st with events := st.events ++ [RouterEvent.succeeded r.name] })
          else
            (⟨true, some r.name, none, wr.error.map JsError.message, wr.entry⟩,
             { st with events := st.events ++ [RouterEvent.errored r.name] })

/- ───────────────────────── VerificationGates ─────────────────────────
`VerificationGates.planGate` and its approval interface.  The `await` on
`_waitForApproval` is split at its suspension point: `planGateStart` runs
the code before the await and either returns a settled result or parks a
pending gate, `approveGate` / `rejectGate` / `expireGate` are the external
resolutions, and `planGateFinish` is the code after the await (history
tracking, cooldown stamping, audit, decision log).  The pattern hash
`md5_10(skill + ':' + canonical_json)` is modelled by its pre-image
`skill + ':' + canonical_json`, which only coarsens key equality (md5
collisions); the gates' maps are keyed as in the source otherwise. -/

structure Plan where
  description : String
  steps : Option (List String) := none
  deriving DecidableEq, Repr

structure Policy where
  gate1 : Bool
  gate2 : Bool
  cooldown : Nat
  auditTrail : Bool
  deriving DecidableEq, Repr

/-- The `GATE_POLICY` table. -/
def gatePolicy (risk : String) : Option Policy :=
  if risk = "none" then some ⟨false, false, 0, false⟩
  else if risk = "low" then some ⟨false, false, 0, false⟩
  else if risk = "medium" then some ⟨false, true, 0, false⟩
  else if risk = "high" then some ⟨true, true, 0, true⟩
  else if risk = "critical" then some ⟨true, true, 30, true⟩
  else none

def policyNone : Policy := ⟨false, false, 0, false⟩

def policyHigh : Policy := ⟨true, true, 0, true⟩

/-- The `JSON.stringify` of a string (the plans hashed here carry no characters
needing escapes). -/
def jsonStr (s : String) : String := "\"" ++ s ++ "\""

def joinComma : List String → String
  | [] => ""
  | [x] => x
  | x :: y :: t => x ++ "," ++ joinComma (y :: t)

def jsonStrList (l : List String) : String := "[" ++ joinComma (l.map jsonStr) ++ "]"

/-- The `JSON.stringify(plan.steps || plan.description || '')` (an empty
description with no steps stringifies to `""` exactly as the `|| ''`
branch does). -/
def serializePlanKey (p : Plan) : String :=
  match p.steps with
  | some st => jsonStrList st
  | none => jsonStr p.description

/-- The `_hashPattern`, up to the md5-10 truncation (see section comment). -/
def hashPattern (skill : String) (plan : Plan) : String :=
  skill ++ ":" ++ serializePlanKey plan

structure ApprovalRec where
  count : Nat
  lastApproved : Nat
  deriving DecidableEq, Repr

structure PendingGate where
  gate : String
  skill : String
  plan : Plan
  risk : String
  expires : Nat
  deriving DecidableEq, Repr

inductive GateEvent where
  | gatePending (gateId gate skill risk : String) (plan : Plan) (timeout : Nat)
  deriving DecidableEq, Repr

structure DecisionRec where
  gate : String
  skill : String
  status : String
  deriving DecidableEq, Repr

structure GatesState where
  approvalHistory : List (String × ApprovalRec) := []
  pendingGates : List (String × PendingGate) := []
  events : List GateEvent := []
  auditTrail : List DecisionRec := []
  decisionLog : List DecisionRec := []
  defaultTimeout : Nat := 120000
  deriving DecidableEq, Repr

def emptyGates : GatesState := {}

/-- The `_gateResult` (the `data` argument is unused by the source too). -/
structure GateResult where
  status : String
  gate : String
  skill : String
  reason : Option String
  ts : Nat
  deriving DecidableEq, Repr

def gateResult (status skill gate : String) (reason : Option String) (now : Nat) :
    GateResult :=
  ⟨status, gate, skill, reason, now⟩

/-- The `_logGateDecision` (a line of the audit-dir day file). -/
def logGateDecision (s : GatesState) (gate skill status : String) : GatesState :=
  { s with decisionLog := s.decisionLog ++ [⟨gate, skill, status⟩] }

/-- The `_trackApproval`. -/
def trackApproval (s : GatesState) (patternKey : String) (now : Nat) : GatesState :=
  let existing := (alGet s.approvalHistory patternKey).getD ⟨0, 0⟩
  { s with approvalHistory := alSet s.approvalHistory patternKey ⟨existing.count + 1, now⟩ }

/-- The `_waitForApproval` up to its suspension: park the pending gate and emit
`gate-pending`. -/
def waitForApproval (s : GatesState) (gateId gate skill : String) (plan : Plan)
    (risk : String) (now : Nat) : GatesState :=
  { s with
    pendingGates := alSet s.pendingGates gateId ⟨gate, skill, plan, risk, now + s.defaultTimeout⟩
    events := s.events ++ [GateEvent.gatePending gateId gate skill risk plan s.defaultTimeout] }

/-- The `context.risk || 'high'`. -/
def planGateRisk (ctxRisk : Option String) : String :=
  match ctxRisk with
  | none => "high"
  | some r => if r = "" then "high" else r

/-- What `planGate` has done when control first leaves it: a settled result
(skip, auto-pass, cooldown rejection), or a suspension on a pending gate. -/
inductive PlanGateStep where
  | done (r : GateResult) (s : GatesState)
  | wait (gateId : String) (s : GatesState)
  deriving Repr

/-- The `planGate` down to the `await _waitForApproval`: policy lookup, the
auto-approval check (count ≥ 3), the cooldown check for cooldown-bearing
tiers, then gate creation. -/
def planGateStart (s : GatesState) (skill : String) (plan : Plan) (ctxRisk : Option String)
    (userId : String) (now : Nat) : PlanGateStep :=
  let risk := planGateRisk ctxRisk
  let policy := (gatePolicy risk).getD policyHigh
  if !policy.gate1 then
    PlanGateStep.done (gateResult "skipped" skill "gate1" none now) s
  else
    let patternKey := hashPattern skill plan
    let autoHit : Bool :=
      match alGet s.approvalHistory patternKey with
      | some h => 3 ≤ h.count
      | none => false
    if autoHit then
      PlanGateStep.done (gateResult "auto_passed" skill "gate1" none now)
        (logGateDecision s "gate1" skill "auto_passed")
    else
      let cooldownHit :=
        if 0 < policy.cooldown then
          match alGet s.approvalHistory ("cooldown:" ++ skill ++ ":" ++ userId) with
          | some last => if now - last.lastApproved < policy.cooldown * 1000 then
              some ((policy.cooldown * 1000 - (now - last.lastApproved) + 999) / 1000)
            else none
          | none => none
        else none
      match cooldownHit with
      | some remaining =>
          PlanGateStep.done (gateResult "rejected" skill "gate1"
            (some ("Cooldown active: " ++ toString remaining ++
              "s remaining before another " ++ skill ++ " execution")) now) s
      | none =>
          let gateId := "gate1:" ++ skill ++ ":" ++ toString now
          PlanGateStep.wait gateId (waitForApproval s gateId "gate1" skill plan risk now)

/-- The `approve(gateId, edits)`: `none` models the `return false` on an absent
gate; otherwise the gate is removed and the waiter resolves `approved` or
`edited`. -/
def approveGate (s : GatesState) (gateId : String) (hasEdits : Bool) :
    Option (String × GatesState) :=
  match alGet s.pendingGates gateId with
  | none => none
  | some _ =>
      some (if hasEdits then "edited" else "approved",
        { s with pendingGates := alErase s.pendingGates gateId })

/-- The `reject(gateId, reason)`. -/
def rejectGate (s : GatesState) (gateId : String) (reason : Option String) :
    Option (String × String × GatesState) :=
  match alGet s.pendingGates gateId with
  | none => none
  | some _ =>
      some ("rejected", reason.getD "User rejected",
        { s with pendingGates := alErase s.pendingGates gateId })

/-- The per-gate timeout firing: if the gate is still pending, remove it
and resolve `expired`. -/
def expireGate (s : GatesState) (gateId : String) : Option GatesState :=
  match alGet s.pendingGates gateId with
  | none => none
  | some _ => some { s with pendingGates := alErase s.pendingGates gateId }

/-- The `planGate` after the `await`: track approval history on `approved` /
`edited`, stamp the cooldown key for cooldown-bearing tiers, write the
audit line when the policy says so, log the decision. -/
def planGateFinish (s : GatesState) (skill : String) (plan : Plan) (risk : String)
    (userId : String) (waitStatus : String) (reason : Option String) (now : Nat) :
    GateResult × GatesState :=
  let policy := (gatePolicy risk).getD policyHigh
  let patternKey := hashPattern skill plan
  let s :=
    if waitStatus = "approved" || waitStatus = "edited" then
      let s := trackApproval s patternKey now
      if 0 < policy.cooldown then
        { s with approvalHistory :=
            alSet s.approvalHistory ("cooldown:" ++ skill ++ ":" ++ userId) ⟨1, now⟩ }
      else s
    else s
  let s :=
    if policy.auditTrail then
      { s with auditTrail := s.auditTrail ++ [⟨"gate1", skill, waitStatus⟩] }
    else s
  (⟨waitStatus, "gate1", skill, reason, now⟩, logGateDecision s "gate1" skill waitStatus)

/-- One externally-approved pass through the plan gate: start, then the
chat surface approving the emitted gate (with plan edits when `hasEdits`),
then the resumed tail.  `none` when the gate settles without suspending. -/
def planGateRound (s : GatesState) (skill : String) (plan : Plan) (risk : String)
    (userId : String) (now : Nat) (hasEdits : Bool) : Option (GateResult × GatesState) :=
  match planGateStart s skill plan (some risk) userId now with
  | PlanGateStep.wait gateId s1 =>
      match approveGate s1 gateId hasEdits with
      | some (status, s2) => some (planGateFinish s2 skill plan risk userId status none now)
      | none => none
  | PlanGateStep.done _ _ => none

/-- A sequence of plan-gate dispatches for one (skill, plan): each call's
immediately-settled status (`"pending"` when it suspends instead). -/
def planGateSeq (skill : String) (plan : Plan) (risk : String) :
    GatesState → List (String × Nat) → List String × GatesState
  | s, [] => ([], s)
  | s, (userId, now) :: rest =>
      match planGateStart s skill plan (some risk) userId now with
      | PlanGateStep.done r s' =>
          let (statuses, sf) := planGateSeq skill plan risk s' rest
          (r.status :: statuses, sf)
      | PlanGateStep.wait _ s' =>
          let (statuses, sf) := planGateSeq skill plan risk s' rest
          ("pending" :: statuses, sf)

/-- The `VerificationGates.preMiddleware()` for the router: when the route's
policy has gate 1 on, dispatch the plan gate and throw on a rejected or
expired resolution.  The awaited plan-gate resolution is the
`gate1Status` / `gate1Reason` parameters (the suspension lives in
`planGateStart` / `planGateFinish` above). -/
def gatesPreMiddleware (gate1Status : String) (gate1Reason : Option String) : PreMW :=
  fun route _msg =>
    if ((gatePolicy route.risk).getD policyNone).gate1 then
      if gate1Status = "rejected" || gate1Status = "expired" then
        Except.error ⟨"Error",
          "Gate 1 " ++ gate1Status ++ ": " ++ (gate1Reason.getD "User rejected"), ""⟩
      else Except.ok ()
    else Except.ok ()

/- ───────────────────────── SelfImprovementLoop ─────────────────────────
`SelfImprovementLoop` from the unnamed source file: corrections, the
insight → proposal table, the two proposal-generation paths and the
proposal queries.  `crypto.randomBytes` ids become a counter; the
correction pattern hash `md5_10(skill + ':' + lowercased_trimmed(reason))`
is modelled by its pre-image as with the plan hash. -/

/-- The `toLowerCase().trim()`. -/
def trimLower (s : String) : String := ⟨trimList (lowerStr s).data⟩

/-- The `_hashCorrection`, up to the md5-10 truncation. -/
def hashCorrection (skill reason : String) : String :=
  skill ++ ":" ++ trimLower reason

/-- The loop's `_summarize` (truncation suffix `...`). -/
def summarizeLoop (data : Option String) : Option String :=
  match data with
  | none => none
  | some s => some (if 500 < s.data.length then ⟨s.data.take 500 ++ "...".data⟩ else s)

structure Correction where
  id : Nat
  skill : String
  original : Option String
  corrected : Option String
  reason : String
  ts : Nat
  patternHash : String
  deriving DecidableEq, Repr

structure Proposal where
  id : Nat
  insightType : String
  skill : Option String
  severity : String
  status : String
  action : String
  description : String
  effort : String
  patternHashData : Option String := none
  errorHashData : Option String := none
  deriving DecidableEq, Repr

/-- An insight, with the `data` fields the proposal paths read. -/
structure Insight where
  itype : String
  severity : String
  skill : Option String
  message : String := ""
  patternHash : Option String := none
  errorHash : Option String := none
  deriving DecidableEq, Repr

structure LoopState where
  corrections : List Correction := []
  proposals : List Proposal := []
  nextId : Nat := 0
  correctionThreshold : Nat := 3
  deriving DecidableEq, Repr

/-- The `_findCommonReason`: case-insensitive mode, earliest-seen reason first
on ties (object key insertion order plus the stable sort). -/
def findCommonReason (reasons : List String) : String :=
  match reasons with
  | [] => "Unknown"
  | _ =>
      let counts := reasons.foldl
        (fun acc r => alSet acc (trimLower r) ((alGet acc (trimLower r)).getD 0 + 1))
        ([] : List (String × Nat))
      ((sortCountDesc counts).head?.map Prod.fst).getD "Unknown"

/-- The `_insightToProposal`: the action/effort table keyed by insight type. -/
def insightToProposal (nextId : Nat) (i : Insight) : Proposal :=
  let base : Proposal :=
    { id := nextId, insightType := i.itype, skill := i.skill, severity := i.severity,
      status := "pending", action := "", description := "", effort := "",
      patternHashData := i.patternHash, errorHashData := i.errorHash }
  if i.itype = "error_pattern" then
    { base with
        action := "add_error_handling", effort := "medium", description := "Add error handling" }
  else if i.itype = "correction_pattern" then
    { base with
        action := "update_skill_logic", effort := "high", description := "Fix skill" }
  else if i.itype = "risk_adjustment" then
    { base with
        action := "adjust_risk_level", effort := "low", description := "Adjust risk level" }
  else if i.itype = "new_route" then
    { base with
        action := "add_new_route", effort := "medium", description := "Add new route" }
  else if i.itype = "performance" then
    { base with
        action := "optimize_performance", effort := "medium", description := "Optimize" }
  else if i.itype = "unused_route" then
    { base with
        action := "review_unused_route", effort := "low", description := "Review unused route" }
  else
    { base with
        action := "manual_review", effort := "unknown", description := i.message }

/-- The `_generateProposals`: one pass over the fresh insights, skipping any
insight already represented by a pending proposal with the same
`(insightType, skill)` pair — including proposals pushed earlier in the
same pass. -/
def generateProposals (ps : List Proposal) (insights : List Insight) (nextId : Nat) :
    List Proposal × Nat :=
  insights.foldl
    (fun acc i =>
      if acc.1.any (fun p =>
          p.insightType = i.itype && p.skill = i.skill && p.status = "pending") then acc
      else (acc.1 ++ [insightToProposal acc.2 i], acc.2 + 1))
    (ps, nextId)

/-- The `_generateCorrectionProposal`: the immediate (threshold-hit) path,
deduplicated by pending `data.patternHash` only. -/
def generateCorrectionProposal (s : LoopState) (skill : String) (patternHash : String) :
    LoopState :=
  let corrections := s.corrections.filter (fun c => c.patternHash = patternHash)
  let commonReason := findCommonReason ((corrections.map Correction.reason).filter (· ≠ ""))
  let proposal : Proposal :=
    { id := s.nextId, insightType := "correction_pattern", skill := some skill,
      severity := "high", status := "pending", action := "update_skill_logic",
      description := "User corrected " ++ skill ++ ": " ++ commonReason,
      effort := "high", patternHashData := some patternHash }
  if s.proposals.any (fun p => p.patternHashData = some patternHash && p.status = "pending")
  then s
  else { s with proposals := s.proposals ++ [proposal], nextId := s.nextId + 1 }

/-- The `recordCorrection`: store, then fire the immediate proposal once the
pattern count reaches the threshold. -/
def recordCorrection (s : LoopState) (skill : String) (original corrected : Option String)
    (reason : String) (ts : Nat) : LoopState :=
  let c : Correction :=
    ⟨s.nextId, skill, summarizeLoop original, summarizeLoop corrected, reason, ts,
     hashCorrection skill reason⟩
  let s := { s with corrections := s.corrections ++ [c], nextId := s.nextId + 1 }
  let patternCount : Nat := (s.corrections.filter (fun c2 => c2.patternHash == c.patternHash)).length
  if s.correctionThreshold ≤ patternCount then generateCorrectionProposal s skill c.patternHash
  else s

structure ProposalFilter where
  status : Option String := none
  skill : Option String := none
  severity : Option String := none
  deriving DecidableEq, Repr

/-- The `severityOrder[a.severity] || 3` — note the JS `||`: a looked-up rank
of `0` is falsy and falls through to the default `3`. -/
def severityRank (sev : String) : Nat :=
  match alGet [("high", 0), ("medium", 1), ("low", 2), ("unknown", 3)] sev with
  | some n => if n = 0 then 3 else n
  | none => 3

/-- Stable insertion by ascending `severityRank` (JS `sort` is stable). -/
def insertBySeverity (p : Proposal) : List Proposal → List Proposal
  | [] => [p]
  | q :: t =>
      if severityRank q.severity ≤ severityRank p.severity then q :: insertBySeverity p t
      else p :: q :: t

def sortBySeverity (l : List Proposal) : List Proposal :=
  l.foldr insertBySeverity []

/-- The `getProposals`: the three optional filters, then the severity sort. -/
def getProposals (s : LoopState) (f : ProposalFilter) : List Proposal :=
  let ps := s.proposals
  let ps := match f.status with | none => ps | some v => ps.filter (fun p => p.status = v)
  let ps := match f.skill with | none => ps | some v => ps.filter (fun p => p.skill = some v)
  let ps := match f.severity with | none => ps | some v => ps.filter (fun p => p.severity = v)
  sortBySeverity ps

/-- The `Array.prototype.find` + in-place mutation on the found proposal. -/
def updateFirstProposal (ps : List Proposal) (pid : Nat) (f : Proposal → Proposal) :
    List Proposal :=
  match ps with
  | [] => []
  | p :: t => if p.id = pid then f p :: t else p :: updateFirstProposal t pid f

/-- The `markApplied`. -/
def markApplied (s : LoopState) (proposalId : Nat) : LoopState :=
  { s with proposals :=
      updateFirstProposal s.proposals proposalId (fun p => { p with status := "applied" }) }

/-- The `approveProposal`. -/
def approveProposal (s : LoopState) (proposalId : Nat) : LoopState :=
  { s with proposals :=
      updateFirstProposal s.proposals proposalId (fun p => { p with status := "approved" }) }

/- ───────────────────────── AutoFixEngine ─────────────────────────
`AutoFixEngine.applyFix` with its backup/test/rollback discipline.  The
filesystem is an association list `path → contents`; `execSync` on the
skill's test file is an oracle parameter (its outcome, as classified by
the `passed` computation of `_runTests`); `Date.now()` is the `nowMs`
parameter.  A JS `throw` out of `applyFix` (unknown id, wrong status) is
`none`. -/

structure Fix where
  id : Nat
  proposalId : Nat
  skill : Option String
  status : String
  sourceFile : String
  fixedCode : String
  backupPath : Option String := none
  rollbackReason : Option String := none
  errMsg : Option String := none
  testPassed : Option Bool := none
  proposalDataHash : Option String := none
  deriving DecidableEq, Repr

/-- The `path → file contents`. -/
abbrev FileSys := List (String × String)

structure EngineState where
  fixes : List Fix := []
  fsys : FileSys := []
  loop : LoopState := {}
  logger : LoggerState := emptyLogger
  events : List String := []
  backupDir : String := "autofix-data/backups"
  deriving Repr

/-- The `_runTests`' verdict on the test subprocess output:
`!output.includes('failed') || output.includes('0 failed')`; a thrown
`execSync` (non-zero exit or timeout) is `passed: false`. -/
structure TestResult where
  passed : Bool
  summary : String
  deriving DecidableEq, Repr

/-- The `path.basename`. -/
def basename (p : String) : String :=
  match afterLastSlash p.data with
  | some t => ⟨t⟩
  | none => p

/-- The backup path `backups/{basename}.{epochMs}.bak`. -/
def mkBackupPath (backupDir filePath : String) (nowMs : Nat) : String :=
  backupDir ++ "/" ++ basename filePath ++ "." ++ toString nowMs ++ ".bak"

/-- The `_backupFile`: copy the source to the backup path (`none` models the
`copyFileSync` throw when the source is missing). -/
def backupFile (fsys : FileSys) (backupDir filePath : String) (nowMs : Nat) :
    Option (String × FileSys) :=
  match alGet fsys filePath with
  | none => none
  | some content =>
      let backupPath := mkBackupPath backupDir filePath nowMs
      some (backupPath, alSet fsys backupPath content)

/-- The `_rollback`: copy the backup back over the source when it exists. -/
def rollbackFix (fsys : FileSys) (fix : Fix) : FileSys :=
  match fix.backupPath with
  | some bp =>
      match alGet fsys bp with
      | some content => alSet fsys fix.sourceFile content
      | none => fsys
  | none => fsys

def updateFirstFix (fs : List Fix) (fid : Nat) (f : Fix → Fix) : List Fix :=
  match fs with
  | [] => []
  | x :: t => if x.id = fid then f x :: t else x :: updateFirstFix t fid f

/-- The `AutoFixEngine.applyFix`: backup, overwrite, test, then deploy (record
the fix against the originating fingerprint, mark the proposal applied) or
roll back.  Returns the `success` flag of the result object and the new
state. -/
def applyFix (s : EngineState) (fixId : Nat) (testOutcome : TestResult)
    (nowMs day : Nat) : Option (Bool × EngineState) :=
  match s.fixes.find? (fun f => f.id = fixId) with
  | none => none
  | some fix =>
      if fix.status ≠ "ready" ∧ fix.status ≠ "approved" then none
      else
        let s := { s with
          fixes := updateFirstFix s.fixes fixId (fun f => { f with status := "applying" }) }
        match backupFile s.fsys s.backupDir fix.sourceFile nowMs with
        | none =>
            -- the copy threw before `fix.backupPath` was set: the catch
            -- branch skips the rollback and marks the fix failed
            some (false,
              { s with
                  fixes := updateFirstFix s.fixes fixId (fun f =>
                    { f with status := "failed", errMsg := some "copy failed" })
                  events := s.events ++ ["fix-failed"] })
        | some (backupPath, fsys) =>
            let fsys := alSet fsys fix.sourceFile fix.fixedCode
            let s := { s with
              fsys := fsys
              fixes := updateFirstFix s.fixes fixId (fun f =>
                { f with backupPath := some backupPath, status := "testing" })
              events := s.events ++ ["fix-testing"] }
            if testOutcome.passed then
              let s := { s with
                fixes := updateFirstFix s.fixes fixId (fun f =>
                  { f with status := "deployed", testPassed := some true }) }
              let s :=
                match fix.proposalDataHash with
                | some h => { s with logger := (recordFix s.logger h "auto-fix" day nowMs).2 }
                | none => s
              let s := { s with
                loop := markApplied s.loop fix.proposalId
                events := s.events ++ ["fix-deployed"] }
              some (true, s)
            else
              let fix' := { fix with backupPath := some backupPath }
              some (false,
                { s with
                    fsys := rollbackFix s.fsys fix'
                    fixes := updateFirstFix s.fixes fixId (fun f =>
                      { f with
                          status := "rolled_back"
                          testPassed := some false
                          rollbackReason := some ("Tests failed: " ++ testOutcome.summary) })
                    events := s.events ++ ["fix-rolled-back"] })

/- ───────────────── derived notions used by the claims ───────────────── -/

/-- One client call against the logger: a `capture` of an error or a
`recordFix` against a fingerprint. -/
inductive LogOp where
  | cap (e : JsError) (ctx : CaptureCtx) (day ts : Nat)
  | fix (hash : String) (desc : String) (day ts : Nat)

def applyLogOp (s : LoggerState) : LogOp → LoggerState
  | LogOp.cap e ctx day ts => (capture s e ctx day ts).2
  | LogOp.fix h d day ts => (recordFix s h d day ts).2

def applyLogOps (s : LoggerState) (ops : List LogOp) : LoggerState :=
  ops.foldl applyLogOp s

/-- The fingerprint counter read back for a hash (`0` when absent, as the
source's `|| 0`). -/
def countOf (s : LoggerState) (h : String) : Nat :=
  (alGet s.occurrenceMap h).getD 0

/-- The number of captures of fingerprint `h` since the last `recordFix`
against `h` (the whole sequence when no fix occurred). -/
def capsSinceLastFix (ops : List LogOp) (h : String) : Nat :=
  ops.foldl
    (fun acc op =>
      match op with
      | LogOp.cap e _ _ _ => if hashStackTrace e.stack = h then acc + 1 else acc
      | LogOp.fix h' _ _ _ => if h' = h then 0 else acc) 0

/-- No two distinct proposals of the list are simultaneously pending with
the same `(insightType, skill)` pair. -/
def uniqueTS (ps : List Proposal) : Prop :=
  ps.Pairwise (fun p q =>
    ¬(p.status = "pending" ∧ q.status = "pending" ∧
      p.insightType = q.insightType ∧ p.skill = q.skill))

/-- No two distinct proposals of the list are simultaneously pending with
the same present `data.patternHash`. -/
def uniquePH (ps : List Proposal) : Prop :=
  ps.Pairwise (fun p q =>
    ¬(p.status = "pending" ∧ q.status = "pending" ∧
      p.patternHashData.isSome ∧ p.patternHashData = q.patternHashData))

/- ═════════════════════════ claim theorems ═════════════════════════ -/

theorem alGet_alSet_self {κ α : Type} [DecidableEq κ] (l : List (κ × α)) (k : κ) (v : α) :
    alGet (alSet l k v) k = some v := by
  induction l with
  | nil => simp [alSet, alGet]
  | cons h t ih =>
      obtain ⟨k', v'⟩ := h
      by_cases hk : k' = k
      · simp [alSet, hk, alGet]
      · simp [alSet, hk, alGet, ih]

theorem alGet_alSet_ne {κ α : Type} [DecidableEq κ] (l : List (κ × α)) (k k' : κ) (v : α)
    (h : k ≠ k') : alGet (alSet l k v) k' = alGet l k' := by
  induction l with
  | nil => simp [alSet, alGet, h]
  | cons hd t ih =>
      obtain ⟨k0, v0⟩ := hd
      by_cases hk : k0 = k
      · subst hk; simp [alSet, alGet, h]
      · simp [alSet, hk, alGet, ih]

theorem alGet_alErase_self {κ α : Type} [DecidableEq κ] (l : List (κ × α)) (k : κ) :
    alGet (alErase l k) k = none := by
  induction l with
  | nil => simp [alErase, alGet]
  | cons hd t ih =>
      obtain ⟨k0, v0⟩ := hd
      by_cases hk : k0 = k
      · simp [alErase, hk, ih]
      · simp [alErase, hk, alGet, ih]


theorem alGet_alErase_ne {κ α : Type} [DecidableEq κ] (l : List (κ × α)) (k k' : κ)
    (h : k ≠ k') : alGet (alErase l k) k' = alGet l k' := by
  induction l with
  | nil => simp [alErase, alGet]
  | cons hd t ih =>
      obtain ⟨k0, v0⟩ := hd
      by_cases hk : k0 = k
      · subst hk; simp [alErase, alGet, h, ih]
      · simp [alErase, hk, alGet, ih]


/-- C5 (counterexample): the claim "every `TypeError` whose message
contains `is not a function` classifies as logic" fails at the concrete
error `TypeError("api.foo is not a function")`: the api tier is tested
before the error-name tier and its `"api"` keyword matches first, so the
classification is `api`, not `logic`. -/
theorem c5_counterexample :
    classifyError ⟨"TypeError", "api.foo is not a function", ""⟩ = "api" ∧
    containsSub (lowerStr "api.foo is not a function") "is not a function" = true ∧
    classifyError ⟨"TypeError", "api.foo is not a function", ""⟩ ≠ "logic" := by
  refine ⟨by decide, by decide, by decide⟩

/-- C5 (amended): for every error named `TypeError` whose message contains
`"is not a function"` and matches none of the message keywords of the
tiers tested earlier in the cascade (syntax, network, timeout, permission,
api), `classifyError` returns `logic` — in particular the dependency tier,
whose `"is not a function"` keyword would otherwise match, is never
reached. -/
theorem c5_typeerror_not_a_function_is_logic (e : JsError)
    (hname : e.name = "TypeError")
    (_hmsg : containsSub (lowerStr e.message) "is not a function" = true)
    (hkw : ∀ kw ∈ earlierTierKeywords, containsSub (lowerStr e.message) kw = false) :
    classifyError e = "logic" := by
  have h01 := hkw "unexpected token" (by simp [earlierTierKeywords])
  have h02 := hkw "econnrefused" (by simp [earlierTierKeywords])
  have h03 := hkw "enotfound" (by simp [earlierTierKeywords])
  have h04 := hkw "fetch failed" (by simp [earlierTierKeywords])
  have h05 := hkw "network" (by simp [earlierTierKeywords])
  have h06 := hkw "timeout" (by simp [earlierTierKeywords])
  have h07 := hkw "etimedout" (by simp [earlierTierKeywords])
  have h08 := hkw "deadline" (by simp [earlierTierKeywords])
  have h09 := hkw "401" (by simp [earlierTierKeywords])
  have h10 := hkw "403" (by simp [earlierTierKeywords])
  have h11 := hkw "unauthorized" (by simp [earlierTierKeywords])
  have h12 := hkw "permission" (by simp [earlierTierKeywords])
  have h13 := hkw "404" (by simp [earlierTierKeywords])
  have h14 := hkw "429" (by simp [earlierTierKeywords])
  have h15 := hkw "500" (by simp [earlierTierKeywords])
  have h16 := hkw "api" (by simp [earlierTierKeywords])
  have h17 := hkw "rate limit" (by simp [earlierTierKeywords])
  have hlow : lowerStr "TypeError" = "typeerror" := by decide
  have hnsyn : ("typeerror" : String) ≠ "syntaxerror" := by decide
  simp [classifyError, hname, hlow, hnsyn, h01, h02, h03, h04, h05, h06, h07, h08, h09, h10,
    h11, h12, h13, h14, h15, h16, h17]

/-- C5 (witness): the amended theorem at `TypeError("x is not a function")`. -/
theorem c5_witness :
    classifyError ⟨"TypeError", "x is not a function", ""⟩ = "logic" :=
  c5_typeerror_not_a_function_is_logic ⟨"TypeError", "x is not a function", ""⟩
    rfl (by decide) (by decide)

/-- C1 (code bug, evaluated at the failing input): a high-risk route whose
plan gate was rejected, so the gates' pre-middleware throws during
`route()`.  The router catches the throw inside its pre-middleware loop,
logs it against the pseudo-skill `middleware-pre`, and carries on: the
handler still runs and the outcome reports success, not the gate failure —
the pipeline does not short-circuit as the claim (and the middleware's own
"Abort execution by throwing" comment) requires. -/
theorem c1_pre_middleware_throw_does_not_abort :
    (routeMsg
      { routes := [{ name := "deploy", risk := "high",
                     matchesMsg := fun m => m == "deploy v2",
                     handler := fun _ => Except.ok "deployed-v2" }],
        preMW := [gatesPreMiddleware "rejected" none] }
      "deploy v2" 0 5 3).1 =
      ⟨true, some "deploy", some "deployed-v2", none, none⟩ ∧
    ((alGet (routeMsg
      { routes := [{ name := "deploy", risk := "high",
                     matchesMsg := fun m => m == "deploy v2",
                     handler := fun _ => Except.ok "deployed-v2" }],
        preMW := [gatesPreMiddleware "rejected" none] }
      "deploy v2" 0 5 3).2.logger.files 0).getD []).map (fun e => (e.etype, e.skill)) =
      [("error", some "middleware-pre"), ("success", some "deploy")] := by
  exact ⟨by decide, by decide⟩

/-- A first pass through the plan gate from a fresh state: the gate suspends,
the chat surface resolves it (`approved`, or `edited` when `e`), and the tail
records an approval count of 1 for the pattern. -/
theorem planGateRound_fresh (skill userId : String) (plan : Plan) (t : Nat) (e : Bool) :
    planGateRound emptyGates skill plan "high" userId t e =
      some (⟨(if e then "edited" else "approved"), "gate1", skill, none, t⟩,
        ⟨[(hashPattern skill plan, ⟨1, t⟩)], [],
          [GateEvent.gatePending ("gate1:" ++ skill ++ ":" ++ toString t) "gate1" skill "high" plan 120000],
          [⟨"gate1", skill, (if e then "edited" else "approved")⟩],
          [⟨"gate1", skill, (if e then "edited" else "approved")⟩], 120000⟩) := by
  cases e <;> simp [planGateRound, planGateStart, planGateRisk, gatePolicy, policyHigh,
    emptyGates, waitForApproval, approveGate, planGateFinish, trackApproval,
    logGateDecision, gateResult, alGet, alSet, alErase]

/-- A later pass through the plan gate while the pattern has been resolved
fewer than three times: the gate still suspends, the resolution bumps the
count from `c` to `c + 1`, and the event / audit / decision logs each grow by
one entry. -/
theorem planGateRound_again (skill userId : String) (plan : Plan) (t tp : Nat) (e : Bool)
    (c : Nat) (hc : c < 3) (evs : List GateEvent) (audit dec : List DecisionRec) :
    planGateRound ⟨[(hashPattern skill plan, ⟨c, tp⟩)], [], evs, audit, dec, 120000⟩
        skill plan "high" userId t e =
      some (⟨(if e then "edited" else "approved"), "gate1", skill, none, t⟩,
        ⟨[(hashPattern skill plan, ⟨c + 1, t⟩)], [],
          evs ++ [GateEvent.gatePending ("gate1:" ++ skill ++ ":" ++ toString t) "gate1" skill "high" plan 120000],
          audit ++ [⟨"gate1", skill, (if e then "edited" else "approved")⟩],
          dec ++ [⟨"gate1", skill, (if e then "edited" else "approved")⟩], 120000⟩) := by
  have hc3 : ¬ (3 ≤ c) := by omega
  cases e <;> simp [planGateRound, planGateStart, planGateRisk, gatePolicy, policyHigh,
    waitForApproval, approveGate, planGateFinish, trackApproval,
    logGateDecision, gateResult, alGet, alSet, alErase, hc3]

/-- C3: dispatching the same (skill, plan) through the plan gate under the
gate1-enabled `high` policy and resolving it three times as approved or
edited (any mix, chosen by `e1 e2 e3`) drives the pattern's approval count
to three; the fourth `planGate` call then settles synchronously as
`auto_passed` — no `gate-pending` event is emitted, the pending-gates map is
untouched (and empty) — instead of suspending. -/
theorem c3_three_approvals_then_auto_passed (skill userId : String) (plan : Plan)
    (t1 t2 t3 t4 : Nat) (e1 e2 e3 : Bool) :
    ∃ r1 s1 r2 s2 r3 s3,
      planGateRound emptyGates skill plan "high" userId t1 e1 = some (r1, s1) ∧
      r1.status = (if e1 then "edited" else "approved") ∧
      planGateRound s1 skill plan "high" userId t2 e2 = some (r2, s2) ∧
      r2.status = (if e2 then "edited" else "approved") ∧
      planGateRound s2 skill plan "high" userId t3 e3 = some (r3, s3) ∧
      r3.status = (if e3 then "edited" else "approved") ∧
      ∃ r4 s4,
        planGateStart s3 skill plan (some "high") userId t4 = PlanGateStep.done r4 s4 ∧
        r4.status = "auto_passed" ∧
        s4.pendingGates = s3.pendingGates ∧
        s4.events = s3.events ∧
        s3.pendingGates = [] := by
  refine ⟨_, _, _, _, _, _,
    planGateRound_fresh skill userId plan t1 e1, rfl,
    planGateRound_again skill userId plan t2 t1 e2 1 (by omega) _ _ _, rfl,
    planGateRound_again skill userId plan t3 t2 e3 2 (by omega) _ _ _, rfl,
    ⟨"auto_passed", "gate1", skill, none, t4⟩,
    ⟨[(hashPattern skill plan, ⟨3, t3⟩)], [],
      [GateEvent.gatePending ("gate1:" ++ skill ++ ":" ++ toString t1) "gate1" skill "high" plan 120000,
       GateEvent.gatePending ("gate1:" ++ skill ++ ":" ++ toString t2) "gate1" skill "high" plan 120000,
       GateEvent.gatePending ("gate1:" ++ skill ++ ":" ++ toString t3) "gate1" skill "high" plan 120000],
      [⟨"gate1", skill, (if e1 then "edited" else "approved")⟩,
       ⟨"gate1", skill, (if e2 then "edited" else "approved")⟩,
       ⟨"gate1", skill, (if e3 then "edited" else "approved")⟩],
      [⟨"gate1", skill, (if e1 then "edited" else "approved")⟩,
       ⟨"gate1", skill, (if e2 then "edited" else "approved")⟩,
       ⟨"gate1", skill, (if e3 then "edited" else "approved")⟩,
       ⟨"gate1", skill, "auto_passed"⟩], 120000⟩, ?_, rfl, rfl, rfl, rfl⟩
  simp [planGateStart, planGateRisk, gatePolicy, policyHigh, logGateDecision,
    gateResult, alGet]

/-- C10: in `planGate` the auto-approval check precedes the cooldown check
and the auto-passed return precedes any history update; hence from any
gates state whose approval count for the pattern is at least 3, every
subsequent `critical`-risk plan gate for that pattern — regardless of the
callers' cooldown entries or timing — settles `auto_passed` immediately,
and the approval history, pending map and event list never change. -/
theorem c10_auto_precedes_cooldown (s : GatesState) (skill : String) (plan : Plan)
    (calls : List (String × Nat)) (h : ApprovalRec)
    (hh : alGet s.approvalHistory (hashPattern skill plan) = some h)
    (hc : 3 ≤ h.count) :
    (planGateSeq skill plan "critical" s calls).1 =
      calls.map (fun _ => "auto_passed") ∧
    (planGateSeq skill plan "critical" s calls).2.approvalHistory = s.approvalHistory ∧
    (planGateSeq skill plan "critical" s calls).2.pendingGates = s.pendingGates ∧
    (planGateSeq skill plan "critical" s calls).2.events = s.events := by
  induction calls generalizing s with
  | nil => simp [planGateSeq]
  | cons c rest ih =>
      obtain ⟨userId, now⟩ := c
      have hstep : planGateStart s skill plan (some "critical") userId now =
          PlanGateStep.done (gateResult "auto_passed" skill "gate1" none now)
            (logGateDecision s "gate1" skill "auto_passed") := by
        simp [planGateStart, planGateRisk, gatePolicy, hh, hc]
      have hrest := ih (logGateDecision s "gate1" skill "auto_passed")
        (by simpa [logGateDecision] using hh)
      simp [planGateSeq, hstep, gateResult, logGateDecision] at hrest ⊢
      exact hrest

theorem countOf_applyLogOp (s : LoggerState) (op : LogOp) (h : String) :
    countOf (applyLogOp s op) h =
      match op with
      | LogOp.cap e _ _ _ =>
          if hashStackTrace e.stack = h then countOf s h + 1 else countOf s h
      | LogOp.fix h' _ _ _ => if h' = h then 0 else countOf s h := by
  cases op with
  | cap e ctx day ts =>
      by_cases hk : hashStackTrace e.stack = h
      · subst hk
        simp [applyLogOp, capture, buildEntry, appendToLog, countOf, alGet_alSet_self]
      · simp [applyLogOp, capture, buildEntry, appendToLog, countOf,
          alGet_alSet_ne _ _ _ _ hk, hk]
  | fix h' d day ts =>
      by_cases hk : h' = h
      · subst hk
        simp [applyLogOp, recordFix, appendToLog, countOf, alGet_alErase_self]
      · simp [applyLogOp, recordFix, appendToLog, countOf, alGet_alErase_ne _ _ _ hk, hk]

theorem countOf_applyLogOps (s : LoggerState) (ops : List LogOp) (h : String) :
    countOf (applyLogOps s ops) h =
      ops.foldl
        (fun acc op =>
          match op with
          | LogOp.cap e _ _ _ => if hashStackTrace e.stack = h then acc + 1 else acc
          | LogOp.fix h' _ _ _ => if h' = h then 0 else acc) (countOf s h) := by
  induction ops generalizing s with
  | nil => simp [applyLogOps]
  | cons op rest ih =>
      have hstep := countOf_applyLogOp s op h
      calc countOf (applyLogOps s (op :: rest)) h
          = countOf (applyLogOps (applyLogOp s op) rest) h := by
            simp [applyLogOps, List.foldl_cons]
        _ = rest.foldl _ (countOf (applyLogOp s op) h) := ih (applyLogOp s op)
        _ = _ := by rw [hstep, List.foldl_cons]

/-- C7: every `capture` bumps the captured fingerprint's counter by exactly
one (both in the counter map and in the returned entry's
`occurrence_count`), `recordFix` clears the fingerprint, and over any
sequence of captures and fixes against the logger the counter for a
fingerprint equals the number of its captures since its last fix — so it
strictly increases between fixes and restarts from zero after each. -/
theorem c7_counter_monotone :
    (∀ s (e : JsError) ctx day ts,
        (capture s e ctx day ts).1.occurrenceCount = countOf s (hashStackTrace e.stack) + 1 ∧
        countOf (capture s e ctx day ts).2 (hashStackTrace e.stack)
          = countOf s (hashStackTrace e.stack) + 1) ∧
    (∀ s h d day ts, countOf (recordFix s h d day ts).2 h = 0) ∧
    (∀ ops h, countOf (applyLogOps emptyLogger ops) h = capsSinceLastFix ops h) := by
  refine ⟨fun s e ctx day ts => ⟨?_, ?_⟩, fun s h d day ts => ?_, fun ops h => ?_⟩
  · simp [capture, buildEntry, countOf]
  · simp [capture, buildEntry, appendToLog, countOf, alGet_alSet_self]
  · simp [recordFix, appendToLog, countOf, alGet_alErase_self]
  · have := countOf_applyLogOps emptyLogger ops h
    simpa [capsSinceLastFix, countOf, emptyLogger, alGet] using this

/-- C8 (code bug, evaluated at the failing input): the same error captured
on day 39 (timestamp 100) and day 40 (timestamp 200); `query` scans the
newest day first, so the 30-day scan returns `[200, 100]` and
`entries[entries.length - 1]` — the code's "most recent entry" — is the
day-39 record with timestamp 100, although a matching record with the
greater timestamp 200 lies in the scanned window. -/
theorem c8_latest_entry_is_not_most_recent :
    ((getRecurringErrors
        (capture (capture emptyLogger ⟨"Error", "boom", ""⟩
            ⟨some "token-audit", none, none, none⟩ 39 100).2
          ⟨"Error", "boom", ""⟩ ⟨some "token-audit", none, none, none⟩ 40 200).2
        10 40).map (fun r => (r.hash, r.count, r.latestEntry.map LogEntry.ts)))
      = [("no-stack", 2, some 100)] ∧
    ((queryLog
        (capture (capture emptyLogger ⟨"Error", "boom", ""⟩
            ⟨some "token-audit", none, none, none⟩ 39 100).2
          ⟨"Error", "boom", ""⟩ ⟨some "token-audit", none, none, none⟩ 40 200).2
        { hash := some "no-stack" } 30 40).map LogEntry.ts) = [200, 100] := by
  exact ⟨by decide, by decide⟩

/-- C9 (code bug, evaluated at the failing input): with one pending `high`
and one pending `low` proposal, `getProposals` returns the low-severity
proposal first.  The comparator reads `severityOrder[a.severity] || 3`,
and the rank of `high` is `0` — falsy — so `high` collapses to the default
rank 3 and sorts after `medium` and `low`, not first. -/
theorem c9_high_severity_sorts_last :
    (getProposals
        { proposals :=
            [⟨1, "error_pattern", some "a", "high", "pending", "x", "", "medium", none, none⟩,
             ⟨2, "performance", some "b", "low", "pending", "y", "", "medium", none, none⟩] }
        {}).map (fun p => (p.id, p.severity)) = [(2, "low"), (1, "high")] ∧
    severityRank "high" = 3 ∧ severityRank "low" = 2 := by
  exact ⟨by decide, by decide, by decide⟩

theorem find?_updateFirstFix (fs : List Fix) (fid : Nat) (f : Fix → Fix)
    (hid : ∀ x, (f x).id = x.id) :
    (updateFirstFix fs fid f).find? (fun x => x.id = fid)
      = (fs.find? (fun x => x.id = fid)).map f := by
  induction fs with
  | nil => simp [updateFirstFix]
  | cons x t ih =>
      by_cases hx : x.id = fid
      · simp [updateFirstFix, hx, List.find?_cons, hid]
      · simp [updateFirstFix, hx, List.find?_cons, ih]

/-- C2: for every applicable fix (`ready` or `approved`) whose test phase
reports failure, `applyFix` resolves unsuccessfully with the source file's
contents equal to the contents captured in the pre-apply backup (both are
the pre-apply bytes `c0`), the fix's status becomes `rolled_back`, and the
improvement loop's proposals — in particular the originating proposal —
are left untouched (never marked `applied`). -/
theorem c2_rollback_integrity (s : EngineState) (fixId : Nat) (fix : Fix) (c0 : String)
    (test : TestResult) (nowMs day : Nat)
    (hfind : s.fixes.find? (fun f => f.id = fixId) = some fix)
    (hstatus : fix.status = "ready" ∨ fix.status = "approved")
    (hsrc : alGet s.fsys fix.sourceFile = some c0)
    (hfail : test.passed = false)
    (hbp : mkBackupPath s.backupDir fix.sourceFile nowMs ≠ fix.sourceFile) :
    (applyFix s fixId test nowMs day).map (fun r => r.1) = some false ∧
    (applyFix s fixId test nowMs day).map (fun r => alGet r.2.fsys fix.sourceFile)
      = some (some c0) ∧
    (applyFix s fixId test nowMs day).map
        (fun r => alGet r.2.fsys (mkBackupPath s.backupDir fix.sourceFile nowMs))
      = some (some c0) ∧
    (applyFix s fixId test nowMs day).map
        (fun r => (r.2.fixes.find? (fun f => f.id = fixId)).map Fix.status)
      = some (some "rolled_back") ∧
    (applyFix s fixId test nowMs day).map (fun r => r.2.loop.proposals)
      = some s.loop.proposals := by
  have hbp' : fix.sourceFile ≠ mkBackupPath s.backupDir fix.sourceFile nowMs := Ne.symm hbp
  have hguard : ¬(fix.status ≠ "ready" ∧ fix.status ≠ "approved") := by
    rcases hstatus with h | h <;> simp [h]
  refine ⟨?_, ?_, ?_, ?_, ?_⟩ <;>
    simp [applyFix, hfind, hguard, backupFile, hsrc, hfail, rollbackFix,
      alGet_alSet_self, alGet_alSet_ne _ _ _ _ hbp', find?_updateFirstFix]

/-- C2 (witness): the theorem at a concrete approved fix for `token-audit`
whose test run reports `2 failed`. -/
theorem c2_witness :
    (applyFix
        { fixes := [{ id := 1, proposalId := 7, skill := some "token-audit",
                      status := "approved", sourceFile := "skills/token-audit/index.js",
                      fixedCode := "PATCHED" }],
          fsys := [("skills/token-audit/index.js", "ORIGINAL")],
          loop := { proposals := [⟨7, "error_pattern", some "token-audit", "medium",
            "approved", "add_error_handling", "", "medium", none, none⟩] } }
        1 ⟨false, "2 failed"⟩ 999 0).map
      (fun r => (r.1, alGet r.2.fsys "skills/token-audit/index.js",
        (r.2.fixes.find? (fun f => f.id = 1)).map Fix.status, r.2.loop.proposals.map Proposal.status))
      = some (false, some "ORIGINAL", some "rolled_back", ["approved"]) := by
  have h := c2_rollback_integrity
    { fixes := [{ id := 1, proposalId := 7, skill := some "token-audit",
                  status := "approved", sourceFile := "skills/token-audit/index.js",
                  fixedCode := "PATCHED" }],
      fsys := [("skills/token-audit/index.js", "ORIGINAL")],
      loop := { proposals := [⟨7, "error_pattern", some "token-audit", "medium",
        "approved", "add_error_handling", "", "medium", none, none⟩] } }
    1
    { id := 1, proposalId := 7, skill := some "token-audit",
      status := "approved", sourceFile := "skills/token-audit/index.js",
      fixedCode := "PATCHED" }
    "ORIGINAL" ⟨false, "2 failed"⟩ 999 0 (by decide) (by decide) (by decide) (by decide)
    (by decide)
  revert h
  decide

/-- C4 (counterexample): the claim "at most one pending proposal per
`(insightType, skill)` across both generation paths" fails on the
immediate correction path, whose duplicate check matches on
`data.patternHash` only.  Three corrections of `token-audit` with reason
`A` then three with reason `B` (threshold 3) leave two simultaneously
pending `(correction_pattern, token-audit)` proposals. -/
theorem c4_counterexample :
    ((recordCorrection (recordCorrection (recordCorrection (recordCorrection
        (recordCorrection (recordCorrection ({} : LoopState)
          "token-audit" none none "A" 1)
          "token-audit" none none "A" 2)
          "token-audit" none none "A" 3)
          "token-audit" none none "B" 4)
          "token-audit" none none "B" 5)
          "token-audit" none none "B" 6).proposals.filter
      (fun p => p.status == "pending" && p.insightType == "correction_pattern" &&
        p.skill == some "token-audit")).length = 2 := by decide

theorem insightToProposal_fields (nid : Nat) (i : Insight) :
    (insightToProposal nid i).insightType = i.itype ∧
    (insightToProposal nid i).skill = i.skill ∧
    (insightToProposal nid i).status = "pending" := by
  unfold insightToProposal
  split_ifs <;> simp

theorem uniqueTS_generateProposals (ps : List Proposal) (insights : List Insight) (nid : Nat)
    (hu : uniqueTS ps) : uniqueTS (generateProposals ps insights nid).1 := by
  induction insights generalizing ps nid with
  | nil => simpa [generateProposals] using hu
  | cons i rest ih =>
      have hstep : (generateProposals ps (i :: rest) nid) =
          (if ps.any (fun p =>
              p.insightType = i.itype && p.skill = i.skill && p.status = "pending")
           then generateProposals ps rest nid
           else generateProposals (ps ++ [insightToProposal nid i]) rest (nid + 1)) := by
        simp only [generateProposals, List.foldl_cons]
        split <;> rfl
      rw [hstep]
      split
      · exact ih ps nid hu
      · rename_i hany
        apply ih
        rw [uniqueTS, List.pairwise_append]
        refine ⟨hu, by simp, ?_⟩
        intro p hp q hq
        simp at hq
        subst hq
        obtain ⟨ht, hs, _⟩ := insightToProposal_fields nid i
        rintro ⟨hp1, _, hp3, hp4⟩
        rw [Bool.not_eq_true, List.any_eq_false] at hany
        have hcontra := hany p hp
        simp [hp3.trans ht, hp4.trans hs, hp1] at hcontra

theorem uniquePH_generateCorrectionProposal (s : LoopState) (skill ph : String)
    (hu : uniquePH s.proposals) :
    uniquePH (generateCorrectionProposal s skill ph).proposals := by
  unfold generateCorrectionProposal
  split
  · exact hu
  · rename_i hany
    simp only []
    rw [uniquePH, List.pairwise_append]
    refine ⟨hu, by simp, ?_⟩
    intro p hp q hq
    simp at hq
    subst hq
    rintro ⟨hp1, _, _, hp4⟩
    rw [Bool.not_eq_true, List.any_eq_false] at hany
    have hcontra := hany p hp
    simp only [] at hp4
    simp [hp4, hp1] at hcontra

/-- C4 (amended): each generation path enforces its own uniqueness
invariant — the analysis cycle's `_generateProposals` never leaves two
pending proposals sharing an `(insightType, skill)` pair, and the
immediate correction path never leaves two pending proposals sharing a
`data.patternHash`; but (per the counterexample) the correction path does
not enforce `(insightType, skill)` uniqueness, so the pairwise invariant
holds per key, not across both paths. -/
theorem c4_per_path_uniqueness (ps : List Proposal) (insights : List Insight) (nid : Nat)
    (s : LoopState) (skill ph : String)
    (h1 : uniqueTS ps) (h2 : uniquePH s.proposals) :
    uniqueTS (generateProposals ps insights nid).1 ∧
    uniquePH (generateCorrectionProposal s skill ph).proposals :=
  ⟨uniqueTS_generateProposals ps insights nid h1,
   uniquePH_generateCorrectionProposal s skill ph h2⟩

/-- C4 (witness): the amended theorem from empty proposal lists, one
insight and one correction proposal. -/
theorem c4_witness :
    uniqueTS (generateProposals [] [⟨"error_pattern", "medium", some "s", "", none, none⟩] 0).1 ∧
    uniquePH (generateCorrectionProposal {} "s" "h").proposals :=
  c4_per_path_uniqueness [] [⟨"error_pattern", "medium", some "s", "", none, none⟩] 0
    {} "s" "h" (by simp [uniqueTS]) (by simp [uniquePH])

theorem splitOnNl_no_nl (l : List Char) (h : ∀ c ∈ l, c ≠ '\n') : splitOnNl l = [l] := by
  induction l with
  | nil => simp [splitOnNl]
  | cons c t ih =>
      have hc : c ≠ '\n' := h c (by simp)
      have ht := ih (fun x hx => h x (by simp [hx]))
      simp [splitOnNl, hc, ht]

theorem trimList_eq_self (a : Char) (m : List Char) (b : Char)
    (ha : isWsChar a = false) (hb : isWsChar b = false) :
    trimList (a :: (m ++ [b])) = a :: (m ++ [b]) := by
  simp [trimList, List.dropWhile_cons, ha, List.reverse_append, hb,
    List.dropWhile, List.reverse_cons]

theorem dropWhile_isDigit_append (D : List Char) (b : Char) (R : List Char)
    (hD : ∀ d ∈ D, d.isDigit = true) (hb : b.isDigit = false) :
    (D ++ b :: R).dropWhile Char.isDigit = b :: R := by
  induction D with
  | nil => simp [List.dropWhile_cons, hb]
  | cons d t ih =>
      have hd := hD d (by simp)
      simp [List.dropWhile_cons, hd, ih (fun x hx => hD x (by simp [hx]))]

theorem takeWhile_append_stop (p : Char → Bool) (A : List Char) (b : Char) (R : List Char)
    (hA : ∀ a ∈ A, p a = true) (hb : p b = false) :
    (A ++ b :: R).takeWhile p = A := by
  induction A with
  | nil => simp [List.takeWhile_cons, hb]
  | cons a t ih =>
      have ha := hA a (by simp)
      simp [List.takeWhile_cons, ha, ih (fun x hx => hA x (by simp [hx]))]

theorem dropNumColon_spec (D R : List Char)
    (hne : D ≠ []) (hD : ∀ d ∈ D, d.isDigit = true) :
    dropNumColon (D ++ ':' :: R) = some R := by
  obtain ⟨d0, D', rfl⟩ : ∃ d0 D', D = d0 :: D' := by
    cases D with
    | nil => exact absurd rfl hne
    | cons x t => exact ⟨x, t, rfl⟩
  have hd0 : d0.isDigit = true := hD d0 (by simp)
  have hdrop := dropWhile_isDigit_append D' ':' R (fun x hx => hD x (by simp [hx])) (by decide)
  simp [dropNumColon, hd0, hdrop]

theorem parseLineColRev_spec (C L X : List Char)
    (hCne : C ≠ []) (hC : ∀ d ∈ C, d.isDigit = true)
    (hLne : L ≠ []) (hL : ∀ d ∈ L, d.isDigit = true) :
    parseLineColRev (C ++ ':' :: (L ++ ':' :: X)) = some X := by
  simp [parseLineColRev, dropNumColon_spec C _ hCne hC, dropNumColon_spec L _ hLne hL]

theorem stripLineCol_spec (X L C : List Char)
    (hLne : L ≠ []) (hL : ∀ d ∈ L, d.isDigit = true)
    (hCne : C ≠ []) (hC : ∀ d ∈ C, d.isDigit = true) :
    stripLineCol (X ++ ':' :: L ++ ':' :: C ++ [')']) = X := by
  have hrev : (X ++ ':' :: L ++ ':' :: C ++ [')']).reverse
      = ')' :: (C.reverse ++ ':' :: (L.reverse ++ ':' :: X.reverse)) := by
    simp [List.reverse_append]
  have hCr : C.reverse ≠ [] := by simpa using hCne
  have hLr : L.reverse ≠ [] := by simpa using hLne
  have hparse := parseLineColRev_spec C.reverse L.reverse X.reverse
    hCr (fun d hd => hC d (by simpa using hd))
    hLr (fun d hd => hL d (by simpa using hd))
  simp [stripLineCol, hrev, hparse]

theorem afterLastSlash_spec (A B : List Char) (hB : ∀ b ∈ B, b ≠ '/') :
    afterLastSlash (A ++ '/' :: B) = some B := by
  have hrev : (A ++ '/' :: B).reverse = B.reverse ++ '/' :: A.reverse := by
    simp [List.reverse_append]
  have htake : (B.reverse ++ '/' :: A.reverse).takeWhile (fun c => c ≠ '/') = B.reverse := by
    refine takeWhile_append_stop _ _ _ _ (fun a ha => ?_) (by decide)
    have := hB a (by simpa using ha)
    simpa using this
  have hlen : ¬(B.reverse.length = (A ++ '/' :: B).length) := by
    simp
    omega
  unfold afterLastSlash
  rw [hrev, htake, if_neg hlen, List.reverse_reverse]

theorem stripAbsPathAux_no_paren (L : List Char) (fuel : Nat)
    (h : ∀ c ∈ L, c ≠ '(') : stripAbsPathAux fuel L = L := by
  induction L generalizing fuel with
  | nil => cases fuel <;> simp [stripAbsPathAux]
  | cons c rest ih =>
      cases fuel with
      | zero => simp [stripAbsPathAux]
      | succ f =>
          have hc : c ≠ '(' := h c (by simp)
          simp [stripAbsPathAux, hc, ih f (fun x hx => h x (by simp [hx]))]

theorem stripAbsPathAux_main (pre mid B : List Char) (fuel : Nat)
    (hpre : ∀ c ∈ pre, c ≠ '(')
    (hBs : ∀ c ∈ B, c ≠ '/') (hBp : ∀ c ∈ B, c ≠ '(')
    (hf : pre.length + 1 ≤ fuel) :
    stripAbsPathAux fuel (pre ++ '(' :: '/' :: (mid ++ '/' :: B)) = pre ++ '(' :: B := by
  induction pre generalizing fuel with
  | nil =>
      obtain ⟨f, rfl⟩ : ∃ f, fuel = f + 1 := by
        cases fuel with
        | zero => omega
        | succ f => exact ⟨f, rfl⟩
      simp [stripAbsPathAux, afterLastSlash_spec mid B hBs, stripAbsPathAux_no_paren B f hBp]
  | cons c pre' ih =>
      obtain ⟨f, rfl⟩ : ∃ f, fuel = f + 1 := by
        cases fuel with
        | zero => simp at hf
        | succ f => exact ⟨f, rfl⟩
      have hc : c ≠ '(' := hpre c (by simp)
      have hf' : pre'.length + 1 ≤ f := by simp at hf; omega
      simp [stripAbsPathAux, hc,
        ih f (fun x hx => hpre x (by simp [hx])) hf']

theorem normalizeStack_frame (fn p base l ch : List Char)
    (hfn_nl : ∀ c ∈ fn, c ≠ '\n') (hfn_par : ∀ c ∈ fn, c ≠ '(')
    (hp_nl : ∀ c ∈ p, c ≠ '\n')
    (hb_sl : ∀ c ∈ base, c ≠ '/') (hb_par : ∀ c ∈ base, c ≠ '(')
    (hb_nl : ∀ c ∈ base, c ≠ '\n')
    (hl_ne : l ≠ []) (hl_dig : ∀ c ∈ l, c.isDigit = true)
    (hc_ne : ch ≠ []) (hc_dig : ∀ c ∈ ch, c.isDigit = true) :
    normalizeStack ⟨'a' :: 't' :: ' ' :: (fn ++ ' ' :: '(' :: '/' ::
        (p ++ '/' :: (base ++ ':' :: (l ++ ':' :: (ch ++ [')'])))))⟩
      = ⟨'a' :: 't' :: ' ' :: (fn ++ ' ' :: '(' :: base)⟩ := by
  have hdig_nl : ∀ (d : List Char), (∀ c ∈ d, c.isDigit = true) → ∀ c ∈ d, c ≠ '\n' := by
    intro d hd c hc heq
    have := hd c hc
    subst heq
    simp at this
  set line : List Char := 'a' :: 't' :: ' ' :: (fn ++ ' ' :: '(' :: '/' ::
      (p ++ '/' :: (base ++ ':' :: (l ++ ':' :: (ch ++ [')']))))) with hline
  have hnl : ∀ c ∈ line, c ≠ '\n' := by
    intro c hc
    rw [hline] at hc
    simp at hc
    rcases hc with h | h | h | h | h | h | h | h | h | h | h | h | h | h | h
    all_goals first
      | (subst h; decide)
      | exact hfn_nl c h
      | exact hp_nl c h
      | exact hb_nl c h
      | exact hdig_nl l hl_dig c h
      | exact hdig_nl ch hc_dig c h
  have hsplit : splitOnNl line = [line] := splitOnNl_no_nl line hnl
  have htrim : trimList line = line := by
    have hshape : line = 'a' :: (('t' :: ' ' :: (fn ++ ' ' :: '(' :: '/' ::
        (p ++ '/' :: (base ++ ':' :: (l ++ ':' :: ch))))) ++ [')']) := by
      rw [hline]; simp
    rw [hshape]
    exact trimList_eq_self _ _ _ (by decide) (by decide)
  have hstarts : listStartsWith line ['a', 't', ' '] = true := by
    rw [hline]; simp [listStartsWith]
  have hstrip1 : stripLineCol line =
      'a' :: 't' :: ' ' :: (fn ++ ' ' :: '(' :: '/' :: (p ++ '/' :: base)) := by
    have hshape : line = ('a' :: 't' :: ' ' :: (fn ++ ' ' :: '(' :: '/' ::
        (p ++ '/' :: base))) ++ ':' :: l ++ ':' :: ch ++ [')'] := by
      rw [hline]; simp
    rw [hshape]
    exact stripLineCol_spec _ l ch hl_ne hl_dig hc_ne hc_dig
  have hstrip2 : stripAbsPath ('a' :: 't' :: ' ' :: (fn ++ ' ' :: '(' :: '/' ::
      (p ++ '/' :: base))) = 'a' :: 't' :: ' ' :: (fn ++ ' ' :: '(' :: base) := by
    have hshape : 'a' :: 't' :: ' ' :: (fn ++ ' ' :: '(' :: '/' :: (p ++ '/' :: base))
        = ('a' :: 't' :: ' ' :: (fn ++ [' '])) ++ '(' :: '/' :: (p ++ '/' :: base) := by
      simp
    rw [stripAbsPath, hshape]
    have hpre : ∀ c ∈ 'a' :: 't' :: ' ' :: (fn ++ [' ']), c ≠ '(' := by
      intro c hc
      simp at hc
      rcases hc with h | h | h | h | h
      all_goals first | (subst h; decide) | exact hfn_par c h
    have := stripAbsPathAux_main ('a' :: 't' :: ' ' :: (fn ++ [' '])) p base
      (('a' :: 't' :: ' ' :: (fn ++ [' '])) ++ '(' :: '/' :: (p ++ '/' :: base)).length
      hpre hb_sl hb_par (by simp; omega)
    rw [this]
    simp
  unfold normalizeStack
  rw [show (⟨line⟩ : String).data = line from rfl, hsplit]
  simp only [List.map_cons, List.map_nil, htrim]
  rw [List.filter_cons_of_pos (by simpa using hstarts)]
  simp only [List.filter_nil, List.map_cons, List.map_nil, hstrip1, hstrip2, List.take,
    joinBar]

/-- C6 (counterexample): two single-frame stacks whose lines differ only in
the absolute path prefix (`/home/alice/` vs `/srv/deploy/`, same basename,
same line and column): V8's bare-path frame form carries no parenthesis,
the path regex `/\\(\\/.*\\//` never fires, the differing prefixes survive
normalization, and the fingerprints differ. -/
theorem c6_counterexample :
    hashStackTrace "at /home/alice/app.js:1:1" ≠ hashStackTrace "at /srv/deploy/app.js:1:1" ∧
    normalizeStack "at /home/alice/app.js:1:1" = "at /home/alice/app.js" ∧
    normalizeStack "at /srv/deploy/app.js:1:1" = "at /srv/deploy/app.js" := by
  exact ⟨by decide, by decide, by decide⟩

/-- C6 (amended): for frames in the parenthesised form
`at fn (/prefix/base:line:col)`, the fingerprint is invariant under any
change of line/column numbers and of the absolute path prefix: both
normalize to `at fn (base` and hash identically.  (Per the counterexample,
bare-path frames `at /path:line:col` keep their prefix, so the invariance
claimed for all stacks holds only for parenthesised frames.) -/
theorem c6_fingerprint_invariance (fn p1 p2 base l1 c1 l2 c2 : List Char)
    (hfn_nl : ∀ c ∈ fn, c ≠ '\n') (hfn_par : ∀ c ∈ fn, c ≠ '(')
    (hp1_nl : ∀ c ∈ p1, c ≠ '\n') (hp2_nl : ∀ c ∈ p2, c ≠ '\n')
    (hb_sl : ∀ c ∈ base, c ≠ '/') (hb_par : ∀ c ∈ base, c ≠ '(')
    (hb_nl : ∀ c ∈ base, c ≠ '\n')
    (hl1_ne : l1 ≠ []) (hl1_dig : ∀ c ∈ l1, c.isDigit = true)
    (hc1_ne : c1 ≠ []) (hc1_dig : ∀ c ∈ c1, c.isDigit = true)
    (hl2_ne : l2 ≠ []) (hl2_dig : ∀ c ∈ l2, c.isDigit = true)
    (hc2_ne : c2 ≠ []) (hc2_dig : ∀ c ∈ c2, c.isDigit = true) :
    hashStackTrace ⟨'a' :: 't' :: ' ' :: (fn ++ ' ' :: '(' :: '/' ::
        (p1 ++ '/' :: (base ++ ':' :: (l1 ++ ':' :: (c1 ++ [')'])))))⟩
      = hashStackTrace ⟨'a' :: 't' :: ' ' :: (fn ++ ' ' :: '(' :: '/' ::
        (p2 ++ '/' :: (base ++ ':' :: (l2 ++ ':' :: (c2 ++ [')'])))))⟩ := by
  have h1 := normalizeStack_frame fn p1 base l1 c1 hfn_nl hfn_par hp1_nl
    hb_sl hb_par hb_nl hl1_ne hl1_dig hc1_ne hc1_dig
  have h2 := normalizeStack_frame fn p2 base l2 c2 hfn_nl hfn_par hp2_nl
    hb_sl hb_par hb_nl hl2_ne hl2_dig hc2_ne hc2_dig
  have hne1 : (⟨'a' :: 't' :: ' ' :: (fn ++ ' ' :: '(' :: '/' ::
      (p1 ++ '/' :: (base ++ ':' :: (l1 ++ ':' :: (c1 ++ [')'])))))⟩ : String) ≠ "" := by
    intro h
    have := congrArg String.data h
    simp at this
  have hne2 : (⟨'a' :: 't' :: ' ' :: (fn ++ ' ' :: '(' :: '/' ::
      (p2 ++ '/' :: (base ++ ':' :: (l2 ++ ':' :: (c2 ++ [')'])))))⟩ : String) ≠ "" := by
    intro h
    have := congrArg String.data h
    simp at this
  unfold hashStackTrace
  rw [if_neg hne1, if_neg hne2, h1, h2]

/-- C6 (witness): the amended theorem at the frame `at foo (/…/app.js:l:c)`
with prefixes `home/u` vs `srv/x`, lines 1 vs 33 and columns 2 vs 44. -/
theorem c6_witness :
    hashStackTrace ⟨'a' :: 't' :: ' ' :: ("foo".data ++ ' ' :: '(' :: '/' ::
        ("home/u".data ++ '/' :: ("app.js".data ++ ':' :: ("1".data ++ ':' ::
          ("2".data ++ [')'])))))⟩
      = hashStackTrace ⟨'a' :: 't' :: ' ' :: ("foo".data ++ ' ' :: '(' :: '/' ::
        ("srv/x".data ++ '/' :: ("app.js".data ++ ':' :: ("33".data ++ ':' ::
          ("44".data ++ [')'])))))⟩ :=
  c6_fingerprint_invariance "foo".data "home/u".data "srv/x".data "app.js".data
    "1".data "2".data "33".data "44".data
    (by decide) (by decide) (by decide) (by decide) (by decide) (by decide) (by decide)
    (by decide) (by decide) (by decide) (by decide) (by decide) (by decide) (by decide)
    (by decide)


/-- C10 (witness): the theorem at a state holding three recorded approvals
for `transfer` and an active cooldown stamp, over two subsequent calls. -/
theorem c10_witness :
    (planGateSeq "transfer" { description := "move funds" } "critical"
      { approvalHistory := [(hashPattern "transfer" { description := "move funds" }, ⟨3, 50⟩),
                            ("cooldown:transfer:u1", ⟨1, 50⟩)] }
      [("u1", 51), ("u1", 52)]).1 = ["auto_passed", "auto_passed"] :=
  (c10_auto_precedes_cooldown
    { approvalHistory := [(hashPattern "transfer" { description := "move funds" }, ⟨3, 50⟩),
                          ("cooldown:transfer:u1", ⟨1, 50⟩)] }
    "transfer" { description := "move funds" } [("u1", 51), ("u1", 52)] ⟨3, 50⟩
    (by decide) (by decide)).1

end X1
